import Mathlib

/-!
Verification of the capture session of `traffic2api`
(`src/capture/src/har-capture.ts`, function `captureWithHar`).

The TypeScript function drives a Playwright browser.  We embed it shallowly:
every effectful Playwright / filesystem call is modelled through an
environment `Env` of oracles (does the launch succeed, does a navigation
succeed, which exchange records the recorder captures during a navigation or
a pause, ...) and an explicit `World` state carrying the filesystem and the
ordered log of effectful events the session performed.

Modelling decisions, matching the source line by line:
* `chromium.launch({headless})` may fail (`env.launchOk options.headless`).
* The first, throwaway block of the source (lines 30-58) creates a context
  whose `recordHar.path` is the fixed string `"temp_har.har"`, calls
  `routeFromHAR` and closes the context, all inside a `try`/`catch` that
  ignores errors.  Closing a context created with `recordHar` flushes the
  (here empty) trace to its path, so when the block completes it leaves the
  file `"temp_har.har"` on disk; on any error the block is modelled as
  having no observable effect.  (`routeFromHAR` is replay machinery; we
  conservatively give it no filesystem effect.)
* The main context is bound to `"temp_capture_" ++ toString Date.now() ++ ".har"`
  (`tempHarPath env.now`); its acquisition may fail (`env.newContextOk`),
  and there is no `try`/`finally` in the source, so on that failure the
  function raises without closing the browser.
* `page.goto` failure for one URL is caught and only skips that URL;
  entries recorded by the context during an attempt are kept either way.
* `if (options.waitMs)` is JavaScript truthiness: `0` and `undefined` both
  skip the pause.
* `context.close()` flushes the recorded entries to the trace path
  (`env.flushOk` models whether the write actually lands), then the browser
  is closed, the file is read back (failing exactly when no file is at the
  path), parsed, and deleted.
* Of the HAR format we model exactly the parts the function reads:
  `log.entries`, `entry.request.cookies`, `entry.response.cookies`.
-/

namespace Traffic2Api

/-- A name/value cookie pair as it appears in a HAR entry. -/
structure Cookie where
  name : String
  value : String
deriving DecidableEq

/-- The request side of a HAR exchange record (only the field the code reads). -/
structure HarRequest where
  cookies : List Cookie
deriving DecidableEq

/-- The response side of a HAR exchange record (only the field the code reads). -/
structure HarResponse where
  cookies : List Cookie
deriving DecidableEq

/-- One request/response exchange record of a trace. -/
structure HarEntry where
  request : HarRequest
  response : HarResponse
deriving DecidableEq

/-- The `log` object of a HAR file. -/
structure HarLog where
  entries : List HarEntry
deriving DecidableEq

/-- A parsed HAR trace artifact. -/
structure Har where
  log : HarLog
deriving DecidableEq

/-- The HAR a context flushes when nothing was recorded. -/
def emptyHar : Har := { log := { entries := [] } }

/-- `CaptureOptions.crawlOptions` of the source. -/
structure CrawlOptions where
  maxPages : Nat
  discoverOpenApi : Bool
deriving DecidableEq

/-- The `CaptureOptions` record of the source; all fields optional. -/
structure CaptureOptions where
  waitMs : Option Nat := none
  headless : Option Bool := none
  crawl : Option Bool := none
  crawlOptions : Option CrawlOptions := none
  userDataDir : Option String := none
deriving DecidableEq

/-- The `crawlResult` sub-record of a capture result. -/
structure CrawlResult where
  pagesCrawled : Nat
  openApiSource : Option String := none
deriving DecidableEq

/-- The aggregated cookie record (`Record<string, string>`), modelled by its
lookup function. -/
def CookieMap : Type := String → Option String

/-- The empty cookie record `{}`. -/
def emptyCookies : CookieMap := fun _ => none

/-- The `CaptureResult` record of the source. -/
structure CaptureResult where
  har : Har
  requestCount : Nat
  method : String
  crawlResult : Option CrawlResult
  cookies : CookieMap

/-- `cookies[cookie.name] = cookie.value` — one assignment into the record. -/
def updateCookie (m : CookieMap) (c : Cookie) : CookieMap :=
  fun n => if n = c.name then some c.value else m n

/-- The inner `for (const cookie of ...)` loop: merge one cookie list. -/
def mergeCookies (m : CookieMap) (cs : List Cookie) : CookieMap :=
  cs.foldl updateCookie m

/-- Per exchange record: request-side cookies, then response-side cookies. -/
def entryCookies (m : CookieMap) (e : HarEntry) : CookieMap :=
  mergeCookies (mergeCookies m e.request.cookies) e.response.cookies

/-- The outer `for (const entry of harJson.log.entries)` loop. -/
def harCookies (m : CookieMap) (es : List HarEntry) : CookieMap :=
  es.foldl entryCookies m

/-- The fixed `recordHar` path of the throwaway first context. -/
def firstHarPath : String := "temp_har.har"

/-- `const tempHarPath = ` temp_capture_${Date.now()}.har` ` — the main trace
destination, suffixed with the session timestamp. -/
def tempHarPath (now : Nat) : String :=
  "temp_capture_" ++ Nat.repr now ++ ".har"

/-- Effectful events of a session, in the order they are performed. -/
inductive Ev where
  | launch : Ev
  | newContext : String → Ev
  | navigate : String → Ev
  | pause : Nat → Ev
  | closeContext : String → Ev
  | closeBrowser : Ev
  | readTrace : String → Ev
  | deleteTrace : String → Ev
deriving DecidableEq

/-- The mutable world: files on disk (path to parsed trace content) and the
log of events performed so far. -/
structure World where
  fs : String → Option Har
  events : List Ev

/-- `fs.writeFile`-like effect of a context flushing its trace. -/
def writeFile (fs : String → Option Har) (path : String) (h : Har) :
    String → Option Har :=
  fun p => if p = path then some h else fs p

/-- `fs.unlink`. -/
def removeFile (fs : String → Option Har) (path : String) :
    String → Option Har :=
  fun p => if p = path then none else fs p

/-- Oracles for every effect of the session whose outcome the code does not
determine: acquisition successes, per-target navigation outcomes, and what
the recorder captures while navigating or pausing. -/
structure Env where
  now : Nat
  launchOk : Option Bool → Bool
  firstBlockOk : Bool
  newContextOk : Bool
  navOk : Nat → String → Bool
  entriesOnNav : Nat → String → List HarEntry
  entriesOnWait : Nat → Nat → List HarEntry
  flushOk : Bool

/-- Session-fatal failures of `captureWithHar`. -/
inductive CaptureError where
  | launchFailed : CaptureError
  | contextFailed : CaptureError
  | readFailed : CaptureError
deriving DecidableEq

/-- Accumulator of the `for (const url of urls)` loop. -/
structure VisitAcc where
  pagesVisited : Nat
  recorded : List HarEntry
  events : List Ev
deriving DecidableEq

/-- One iteration of the visiting loop: attempt `page.goto(url)`; on success,
pause iff `options.waitMs` is truthy (`0` and `undefined` are falsy) and
increment `pagesVisited`; on failure, catch, log and move on.  Entries the
recorder captured during the attempt are kept in both cases. -/
def visitStep (env : Env) (waitMs : Option Nat) (acc : VisitAcc)
    (p : Nat × String) : VisitAcc :=
  let acc1 : VisitAcc :=
    { acc with
      events := acc.events ++ [Ev.navigate p.2],
      recorded := acc.recorded ++ env.entriesOnNav p.1 p.2 }
  if env.navOk p.1 p.2 then
    let acc2 : VisitAcc :=
      match waitMs with
      | some w =>
        if w = 0 then acc1
        else
          { acc1 with
            events := acc1.events ++ [Ev.pause w],
            recorded := acc1.recorded ++ env.entriesOnWait p.1 w }
      | none => acc1
    { acc2 with pagesVisited := acc2.pagesVisited + 1 }
  else acc1

/-- The whole visiting loop over the target list (indexed, in order). -/
def runVisits (env : Env) (waitMs : Option Nat) (urls : List String) : VisitAcc :=
  (urls.enum).foldl (visitStep env waitMs) { pagesVisited := 0, recorded := [], events := [] }

/-- Shallow embedding of `captureWithHar(urls, options)`.  Returns the
result (or the error the function raises) together with the final world. -/
def captureWithHar (urls : List String) (options : CaptureOptions) (env : Env)
    (w0 : World) : Except CaptureError CaptureResult × World :=
  if env.launchOk options.headless then
    let w1 : World := { w0 with events := w0.events ++ [Ev.launch] }
    let w2 : World :=
      if env.firstBlockOk then
        { fs := writeFile w1.fs firstHarPath emptyHar,
          events := w1.events ++ [Ev.newContext firstHarPath, Ev.closeContext firstHarPath] }
      else w1
    if env.newContextOk then
      let path : String := tempHarPath env.now
      let w3 : World := { w2 with events := w2.events ++ [Ev.newContext path] }
      let acc : VisitAcc := runVisits env options.waitMs urls
      let w4 : World :=
        { fs := if env.flushOk then writeFile w3.fs path { log := { entries := acc.recorded } } else w3.fs,
          events := w3.events ++ acc.events ++ [Ev.closeContext path] }
      let w5 : World := { w4 with events := w4.events ++ [Ev.closeBrowser] }
      match w5.fs path with
      | none => (Except.error CaptureError.readFailed, w5)
      | some harJson =>
        let w6 : World :=
          { fs := removeFile w5.fs path,
            events := w5.events ++ [Ev.readTrace path, Ev.deleteTrace path] }
        (Except.ok
          { har := harJson,
            requestCount := harJson.log.entries.length,
            method := "playwright-har",
            crawlResult := some { pagesCrawled := acc.pagesVisited, openApiSource := none },
            cookies := harCookies emptyCookies harJson.log.entries }, w6)
    else (Except.error CaptureError.contextFailed, w2)
  else (Except.error CaptureError.launchFailed, w0)

/-! Derived notions used to state the claims. -/

/-- Concatenation of the images of a list (kept local to control lemmas). -/
def concatMap {α β : Type} (f : α → List β) : List α → List β
  | [] => []
  | a :: l => f a ++ concatMap f l

/-- The events one loop iteration appends. -/
def stepEvents (env : Env) (waitMs : Option Nat) (p : Nat × String) : List Ev :=
  Ev.navigate p.2 ::
    (if env.navOk p.1 p.2 then
      match waitMs with
      | some w => if w = 0 then [] else [Ev.pause w]
      | none => []
    else [])

/-- The exchange records one loop iteration appends to the recording. -/
def stepRecorded (env : Env) (waitMs : Option Nat) (p : Nat × String) : List HarEntry :=
  env.entriesOnNav p.1 p.2 ++
    (if env.navOk p.1 p.2 then
      match waitMs with
      | some w => if w = 0 then [] else env.entriesOnWait p.1 w
      | none => []
    else [])

/-- All cookies of a trace, flattened in trace order: for each exchange
record the request-side cookies and then the response-side cookies. -/
def flatCookies (es : List HarEntry) : List Cookie :=
  concatMap (fun e => e.request.cookies ++ e.response.cookies) es

/-- The value of the last cookie named `n` in the list, if any. -/
def lastCookieValue (cs : List Cookie) (n : String) : Option String :=
  cs.foldl (fun acc c => if n = c.name then some c.value else acc) none

/-- The targets navigated to, in order, as read off an event log. -/
def navTargets (l : List Ev) : List String :=
  l.filterMap fun e =>
    match e with
    | Ev.navigate u => some u
    | _ => none

/-- Most-significant-first decimal digit characters of a natural number;
reference rendition of `Nat.repr` used to reason about the time-based
suffix of the trace destination. -/
def natChars (n : Nat) : List Char :=
  if h : n / 10 = 0 then [Nat.digitChar (n % 10)]
  else natChars (n / 10) ++ [Nat.digitChar (n % 10)]
termination_by n
decreasing_by omega

/-- The error a session outcome carries, if any (`none` for a returned
result); the cookie map inside a result is a function, so the outcome itself
has no decidable equality, but this projection has. -/
def resultError : Except CaptureError CaptureResult → Option CaptureError
  | Except.error e => some e
  | Except.ok _ => none

/-! Concrete worlds and environments used to evaluate the theorems. -/

/-- A sample exchange record carrying one request-side and one response-side
cookie of the same name. -/
def sampleEntry : HarEntry :=
  { request := { cookies := [{ name := "sid", value := "reqVal" }] },
    response := { cookies := [{ name := "sid", value := "respVal" }] } }

/-- A world with an empty disk and no events yet. -/
def emptyWorld : World := { fs := fun _ => none, events := [] }

/-- An environment in which every effect succeeds. -/
def allOkEnv : Env :=
  { now := 0,
    launchOk := fun _ => true,
    firstBlockOk := true,
    newContextOk := true,
    navOk := fun _ _ => true,
    entriesOnNav := fun _ _ => [sampleEntry],
    entriesOnWait := fun _ _ => [],
    flushOk := true }

/-- `allOkEnv` one millisecond later: a second session instance. -/
def laterEnv : Env :=
  { allOkEnv with now := 1 }

/-- An environment in which acquiring the main recording context fails. -/
def ctxFailEnv : Env :=
  { allOkEnv with newContextOk := false }

/-- An environment in which every navigation fails and nothing is recorded. -/
def noEntriesEnv : Env :=
  { allOkEnv with navOk := fun _ _ => false, entriesOnNav := fun _ _ => [] }

/-- An environment in which navigation fails exactly on the second target. -/
def secondFailsEnv : Env :=
  { allOkEnv with navOk := fun i _ => i != 1 }

/-! ## Helper lemmas: the visiting loop -/

theorem visitStep_spec (env : Env) (waitMs : Option Nat) (acc : VisitAcc)
    (p : Nat × String) :
    visitStep env waitMs acc p =
      { pagesVisited := acc.pagesVisited + (if env.navOk p.1 p.2 then 1 else 0),
        recorded := acc.recorded ++ stepRecorded env waitMs p,
        events := acc.events ++ stepEvents env waitMs p } := by
  unfold visitStep stepRecorded stepEvents
  by_cases h : env.navOk p.1 p.2
  · cases waitMs with
    | none => simp [h]
    | some w => by_cases hw : w = 0 <;> simp [h, hw]
  · simp [h]

theorem foldl_visitStep (env : Env) (waitMs : Option Nat) :
    ∀ (l : List (Nat × String)) (acc : VisitAcc),
      l.foldl (visitStep env waitMs) acc =
        { pagesVisited := acc.pagesVisited + l.countP (fun p => env.navOk p.1 p.2),
          recorded := acc.recorded ++ concatMap (stepRecorded env waitMs) l,
          events := acc.events ++ concatMap (stepEvents env waitMs) l } := by
  intro l
  induction l with
  | nil => intro acc; simp [concatMap]
  | cons p l ih =>
    intro acc
    rw [List.foldl_cons, visitStep_spec, ih]
    simp [concatMap, List.countP_cons]
    omega

theorem runVisits_spec (env : Env) (waitMs : Option Nat) (urls : List String) :
    runVisits env waitMs urls =
      { pagesVisited := (urls.enum).countP (fun p => env.navOk p.1 p.2),
        recorded := concatMap (stepRecorded env waitMs) urls.enum,
        events := concatMap (stepEvents env waitMs) urls.enum } := by
  rw [runVisits, foldl_visitStep]
  simp

theorem navTargets_append (l₁ l₂ : List Ev) :
    navTargets (l₁ ++ l₂) = navTargets l₁ ++ navTargets l₂ := by
  simp [navTargets]

theorem navTargets_stepEvents (env : Env) (waitMs : Option Nat)
    (p : Nat × String) : navTargets (stepEvents env waitMs p) = [p.2] := by
  unfold navTargets stepEvents
  by_cases h : env.navOk p.1 p.2
  · cases waitMs with
    | none => simp [h]
    | some w => by_cases hw : w = 0 <;> simp [h, hw, List.filterMap_cons]
  · simp [h]

theorem navTargets_concatMap (env : Env) (waitMs : Option Nat) :
    ∀ l : List (Nat × String),
      navTargets (concatMap (stepEvents env waitMs) l) = l.map Prod.snd := by
  intro l
  induction l with
  | nil => simp [concatMap, navTargets]
  | cons p l ih =>
    rw [concatMap, navTargets_append, navTargets_stepEvents, ih]
    rfl

theorem closeBrowser_not_mem_stepEvents (env : Env) (waitMs : Option Nat)
    (p : Nat × String) : Ev.closeBrowser ∉ stepEvents env waitMs p := by
  unfold stepEvents
  by_cases h : env.navOk p.1 p.2
  · cases waitMs with
    | none => simp [h]
    | some w => by_cases hw : w = 0 <;> simp [h, hw]
  · simp [h]

theorem closeBrowser_not_mem_concatMap (env : Env) (waitMs : Option Nat) :
    ∀ l : List (Nat × String),
      Ev.closeBrowser ∉ concatMap (stepEvents env waitMs) l := by
  intro l
  induction l with
  | nil => simp [concatMap]
  | cons p l ih =>
    rw [concatMap]
    intro hmem
    rcases List.mem_append.mp hmem with h | h
    · exact closeBrowser_not_mem_stepEvents env waitMs p h
    · exact ih h

/-! ## Helper lemmas: cookie aggregation -/

theorem foldl_lastCookie_init (n : String) :
    ∀ (cs : List Cookie) (a : Option String),
      cs.foldl (fun acc c => if n = c.name then some c.value else acc) a =
        match lastCookieValue cs n with
        | some v => some v
        | none => a := by
  intro cs
  induction cs with
  | nil => intro a; simp [lastCookieValue]
  | cons c cs ih =>
    intro a
    rw [List.foldl_cons, ih]
    have hr : lastCookieValue (c :: cs) n =
        match lastCookieValue cs n with
        | some v => some v
        | none => if n = c.name then some c.value else none := by
      rw [lastCookieValue, List.foldl_cons, ih]
    rw [hr]
    cases hl : lastCookieValue cs n with
    | some v => rfl
    | none => by_cases hc : n = c.name <;> simp [hc]

theorem mergeCookies_lookup (n : String) :
    ∀ (cs : List Cookie) (m : CookieMap),
      mergeCookies m cs n =
        match lastCookieValue cs n with
        | some v => some v
        | none => m n := by
  intro cs
  induction cs with
  | nil => intro m; simp [mergeCookies, lastCookieValue]
  | cons c cs ih =>
    intro m
    rw [mergeCookies, List.foldl_cons]
    change mergeCookies (updateCookie m c) cs n = _
    rw [ih]
    have hr : lastCookieValue (c :: cs) n =
        match lastCookieValue cs n with
        | some v => some v
        | none => if n = c.name then some c.value else none := by
      rw [lastCookieValue, List.foldl_cons, foldl_lastCookie_init]
    rw [hr]
    cases hl : lastCookieValue cs n with
    | some v => rfl
    | none => by_cases hc : n = c.name <;> simp [hc, updateCookie]

theorem lastCookieValue_append (cs ds : List Cookie) (n : String) :
    lastCookieValue (cs ++ ds) n =
      match lastCookieValue ds n with
      | some v => some v
      | none => lastCookieValue cs n := by
  rw [lastCookieValue, List.foldl_append, foldl_lastCookie_init]
  rfl

theorem mergeCookies_append (m : CookieMap) (cs ds : List Cookie) :
    mergeCookies m (cs ++ ds) = mergeCookies (mergeCookies m cs) ds := by
  simp [mergeCookies, List.foldl_append]

theorem harCookies_lookup (n : String) :
    ∀ (es : List HarEntry) (m : CookieMap),
      harCookies m es n =
        match lastCookieValue (flatCookies es) n with
        | some v => some v
        | none => m n := by
  intro es
  induction es with
  | nil => intro m; simp [harCookies, flatCookies, concatMap, lastCookieValue]
  | cons e es ih =>
    intro m
    rw [harCookies, List.foldl_cons]
    change harCookies (entryCookies m e) es n = _
    rw [ih]
    have hf : flatCookies (e :: es) =
        (e.request.cookies ++ e.response.cookies) ++ flatCookies es := rfl
    rw [hf, lastCookieValue_append]
    cases hl : lastCookieValue (flatCookies es) n with
    | some v => rfl
    | none =>
      rw [entryCookies, ← mergeCookies_append, mergeCookies_lookup]

/-! ## Helper lemmas: decimal rendering of the timestamp and path disjointness -/

theorem natChars_low (n : Nat) (h : n < 10) : natChars n = [Nat.digitChar n] := by
  rw [natChars]
  simp [Nat.div_eq_of_lt h, Nat.mod_eq_of_lt h]

theorem natChars_high (n : Nat) (h : 10 ≤ n) :
    natChars n = natChars (n / 10) ++ [Nat.digitChar (n % 10)] := by
  rw [natChars]
  have h10 : ¬ n / 10 = 0 := by omega
  simp [h10]

theorem natChars_ne_nil (n : Nat) : natChars n ≠ [] := by
  rw [natChars]
  split <;> simp

theorem toDigitsCore_eq :
    ∀ (fuel n : Nat) (ds : List Char), n < fuel →
      Nat.toDigitsCore 10 fuel n ds = natChars n ++ ds := by
  intro fuel
  induction fuel with
  | zero => intro n ds h; omega
  | succ f ih =>
    intro n ds h
    rw [Nat.toDigitsCore]
    by_cases h10 : n / 10 = 0
    · rw [if_pos h10, natChars]
      simp [h10]
    · rw [if_neg h10, ih (n / 10) _ (by omega), natChars_high n (by omega)]
      simp

theorem repr_data (n : Nat) : (Nat.repr n).data = natChars n := by
  rw [Nat.repr, Nat.toDigits, toDigitsCore_eq (n + 1) n [] (Nat.lt_succ_self n)]
  simp [List.asString]

theorem digitChar_inj_lt :
    ∀ a ∈ Finset.range 10, ∀ b ∈ Finset.range 10,
      Nat.digitChar a = Nat.digitChar b → a = b := by decide

theorem natChars_inj (m n : Nat) (h : natChars m = natChars n) : m = n := by
  by_cases hm : m < 10 <;> by_cases hn : n < 10
  · rw [natChars_low m hm, natChars_low n hn] at h
    have hd : Nat.digitChar m = Nat.digitChar n := by simpa using h
    exact digitChar_inj_lt m (Finset.mem_range.mpr hm) n (Finset.mem_range.mpr hn) hd
  · exfalso
    rw [natChars_low m hm, natChars_high n (by omega)] at h
    rcases hne : natChars (n / 10) with _ | ⟨c, l⟩
    · exact natChars_ne_nil _ hne
    · rw [hne] at h
      simp at h
  · exfalso
    rw [natChars_high m (by omega), natChars_low n hn] at h
    rcases hne : natChars (m / 10) with _ | ⟨c, l⟩
    · exact natChars_ne_nil _ hne
    · rw [hne] at h
      simp at h
  · rw [natChars_high m (by omega), natChars_high n (by omega)] at h
    obtain ⟨h1, h2⟩ := List.append_inj' h rfl
    have e1 : m / 10 = n / 10 := natChars_inj (m / 10) (n / 10) h1
    have hd : Nat.digitChar (m % 10) = Nat.digitChar (n % 10) := by simpa using h2
    have e2 : m % 10 = n % 10 :=
      digitChar_inj_lt (m % 10) (Finset.mem_range.mpr (Nat.mod_lt m (by omega)))
        (n % 10) (Finset.mem_range.mpr (Nat.mod_lt n (by omega))) hd
    omega
termination_by m
decreasing_by omega

theorem repr_data_inj (m n : Nat) (h : (Nat.repr m).data = (Nat.repr n).data) :
    m = n :=
  natChars_inj m n (by rwa [repr_data, repr_data] at h)

theorem tempHarPath_inj (m n : Nat) (h : tempHarPath m = tempHarPath n) :
    m = n := by
  have hd := congrArg String.data h
  simp only [tempHarPath, String.data_append, List.append_assoc] at hd
  have h1 := List.append_cancel_left hd
  have h2 := List.append_cancel_right h1
  exact repr_data_inj m n h2

theorem firstHarPath_ne_tempHarPath (n : Nat) : firstHarPath ≠ tempHarPath n := by
  intro h
  have hd := congrArg String.data h
  simp only [firstHarPath, tempHarPath, String.data_append, List.append_assoc] at hd
  have hlen := congrArg List.length hd
  have l1 : ("temp_har.har" : String).data.length = 12 := by decide
  have l2 : ("temp_capture_" : String).data.length = 13 := by decide
  have l3 : (".har" : String).data.length = 4 := by decide
  simp [List.length_append, l1, l2, l3] at hlen

theorem tempHarPath_ne_firstHarPath (n : Nat) : tempHarPath n ≠ firstHarPath :=
  fun h => firstHarPath_ne_tempHarPath n h.symm

theorem navTargets_nil : navTargets [] = [] := rfl

theorem navTargets_cons (e : Ev) (l : List Ev) :
    navTargets (e :: l) =
      (match e with
        | Ev.navigate u => [u]
        | _ => []) ++ navTargets l := by
  cases e <;> simp [navTargets]

theorem navTargets_runVisits (env : Env) (waitMs : Option Nat)
    (urls : List String) : navTargets (runVisits env waitMs urls).events = urls := by
  rw [runVisits_spec]
  show navTargets (concatMap (stepEvents env waitMs) urls.enum) = urls
  rw [navTargets_concatMap, List.enum_map_snd]

/-! ## Helper lemmas: congruence in the options -/

theorem captureWithHar_congr (urls : List String) (env : Env) (w0 : World)
    (o₁ o₂ : CaptureOptions) (hh : o₁.headless = o₂.headless)
    (hv : runVisits env o₁.waitMs urls = runVisits env o₂.waitMs urls) :
    captureWithHar urls o₁ env w0 = captureWithHar urls o₂ env w0 := by
  unfold captureWithHar
  rw [hh, hv]

/-! ## Claims -/

/-- C1: for every target list and configuration (and any environment
behaviour, in particular when some targets fail navigation), whenever
`captureWithHar` returns a result, its `requestCount` field equals the
number of exchange records in the returned trace artifact. -/
theorem requestCount_eq_trace_entries (urls : List String)
    (options : CaptureOptions) (env : Env) (w0 : World) :
    match (captureWithHar urls options env w0).1 with
    | Except.ok r => r.requestCount = r.har.log.entries.length
    | Except.error _ => True := by
  cases hres : (captureWithHar urls options env w0).1 with
  | error e => trivial
  | ok r =>
    show r.requestCount = r.har.log.entries.length
    simp only [captureWithHar] at hres
    split at hres
    · split at hres
      · split at hres
        · simp at hres
        · simp at hres
          subst hres
          rfl
      · simp at hres
    · simp at hres

/-- C6: cookie aggregation walks the exchange records in trace order,
merging request-side then response-side cookies, later values overwriting
earlier ones regardless of side: the aggregate map sends each name to the
value of the last cookie of that name in the flattened trace order
(first conjunct); re-merging the same trace over the already-aggregated map
yields the same map (second conjunct); and a response cookie appearing
after a request cookie of the same name overwrites it (third conjunct). -/
theorem cookieAggregation_spec :
    (∀ (es : List HarEntry) (n : String),
        harCookies emptyCookies es n = lastCookieValue (flatCookies es) n)
    ∧ (∀ es : List HarEntry,
        harCookies (harCookies emptyCookies es) es = harCookies emptyCookies es)
    ∧ (∀ n a b : String,
        harCookies emptyCookies
          [{ request := { cookies := [{ name := n, value := a }] },
             response := { cookies := [{ name := n, value := b }] } }] n = some b) := by
  refine ⟨?_, ?_, ?_⟩
  · intro es n
    rw [harCookies_lookup]
    cases h : lastCookieValue (flatCookies es) n <;> rfl
  · intro es
    funext n
    conv_lhs => rw [harCookies_lookup]
    cases h : lastCookieValue (flatCookies es) n with
    | none => rfl
    | some v =>
      rw [harCookies_lookup n es emptyCookies, h]
  · intro n a b
    simp [harCookies, entryCookies, mergeCookies, updateCookie, emptyCookies]

/-- C9: the outcome of `captureWithHar` depends on the options only through
`waitMs` and `headless`; two invocations agreeing on those two fields (and
on the targets) coincide for every environment and starting world — the
`crawl`, `crawlOptions` and `userDataDir` fields are never read. -/
theorem result_ignores_crawl_fields (urls : List String)
    (o₁ o₂ : CaptureOptions) (env : Env) (w0 : World)
    (hw : o₁.waitMs = o₂.waitMs) (hh : o₁.headless = o₂.headless) :
    captureWithHar urls o₁ env w0 = captureWithHar urls o₂ env w0 :=
  captureWithHar_congr urls env w0 o₁ o₂ hh (by rw [hw])

/-- C9 witness: two option records agreeing on `waitMs` and `headless` but
differing in `crawl`, `crawlOptions` and `userDataDir` produce identical
outcomes on a concrete run. -/
theorem result_ignores_crawl_fields_witness :
    captureWithHar ["https://example.com"]
      { waitMs := some 250, headless := some true, crawl := some true,
        crawlOptions := some { maxPages := 5, discoverOpenApi := true },
        userDataDir := some "profileDir" } allOkEnv emptyWorld =
    captureWithHar ["https://example.com"]
      { waitMs := some 250, headless := some true } allOkEnv emptyWorld :=
  result_ignores_crawl_fields ["https://example.com"] _ _ allOkEnv emptyWorld rfl rfl

/-- C10: calling `captureWithHar` with `waitMs = 0` behaves identically to
calling it with `waitMs` absent: the JavaScript truthiness guard on
`options.waitMs` treats `0` as unset, so no post-navigation pause happens
in either case and the two invocations agree on every environment. -/
theorem waitMs_zero_eq_absent (urls : List String) (options : CaptureOptions)
    (env : Env) (w0 : World) :
    captureWithHar urls { options with waitMs := some 0 } env w0 =
      captureWithHar urls { options with waitMs := none } env w0 := by
  apply captureWithHar_congr
  · rfl
  · show runVisits env (some 0) urls = runVisits env none urls
    have hstep : visitStep env (some 0) = visitStep env none := by
      funext acc p
      unfold visitStep
      by_cases h : env.navOk p.1 p.2 <;> simp [h]
    unfold runVisits
    rw [hstep]

/-- C5: the visited-page count returned in `crawlResult.pagesCrawled` is the
number of targets whose navigation succeeded, each target attempted exactly
once (first conjunct); it is at most the length of the target list (second
conjunct); and it equals that length exactly when every navigation succeeds
(third conjunct). -/
theorem pagesCrawled_spec (urls : List String) (options : CaptureOptions)
    (env : Env) (w0 : World) :
    (match (captureWithHar urls options env w0).1 with
      | Except.ok r =>
          r.crawlResult =
            some { pagesCrawled := (urls.enum).countP (fun p => env.navOk p.1 p.2),
                   openApiSource := none }
      | Except.error _ => True)
    ∧ (urls.enum).countP (fun p => env.navOk p.1 p.2) ≤ urls.length
    ∧ ((urls.enum).countP (fun p => env.navOk p.1 p.2) = urls.length ↔
        ∀ i (_ : i < urls.length), env.navOk i urls[i] = true) := by
  refine ⟨?_, ?_, ?_⟩
  · cases hres : (captureWithHar urls options env w0).1 with
    | error e => trivial
    | ok r =>
      show r.crawlResult = _
      simp only [captureWithHar] at hres
      split at hres
      · split at hres
        · split at hres
          · simp at hres
          · simp at hres
            subst hres
            simp [runVisits_spec]
        · simp at hres
      · simp at hres
  · have h1 : (urls.enum).countP (fun p => env.navOk p.1 p.2) ≤ (urls.enum).length :=
      List.countP_le_length _
    rwa [List.enum_length] at h1
  · have hlen : urls.length = (urls.enum).length := (List.enum_length).symm
    constructor
    · intro h i hi
      have h2 : List.countP (fun p => env.navOk p.1 p.2) urls.enum = (urls.enum).length :=
        h.trans hlen
      have hall := List.countP_eq_length.mp h2
      have hone := List.forall_mem_enum.mp hall i hi
      simpa using hone
    · intro h
      rw [hlen]
      refine List.countP_eq_length.mpr ?_
      refine List.forall_mem_enum.mpr ?_
      intro i hi
      simpa using h i hi

/-- C5 witness: with two targets of which the second fails navigation, the
returned result reports exactly one page crawled. -/
theorem pagesCrawled_spec_witness :
    match (captureWithHar ["a", "b"] {} secondFailsEnv emptyWorld).1 with
    | Except.ok r => r.crawlResult = some { pagesCrawled := 1, openApiSource := none }
    | Except.error _ => True := by
  have h := (pagesCrawled_spec ["a", "b"] {} secondFailsEnv emptyWorld).1
  have hc : ((["a", "b"] : List String).enum).countP
      (fun p => secondFailsEnv.navOk p.1 p.2) = 1 := by decide
  rw [hc] at h
  exact h

/-- C8: when the finalized trace contains zero exchange records (for example
because every target failed navigation and nothing was recorded), the
session still returns a well-formed result — `requestCount = 0`, empty
cookie map — and raises no error. -/
theorem emptyTrace_result (urls : List String) (options : CaptureOptions)
    (env : Env) (w0 : World)
    (hl : env.launchOk options.headless = true)
    (hc : env.newContextOk = true)
    (hf : env.flushOk = true)
    (hrec : (runVisits env options.waitMs urls).recorded = []) :
    match (captureWithHar urls options env w0).1 with
    | Except.ok r => r.requestCount = 0 ∧ r.cookies = emptyCookies
    | Except.error _ => False := by
  simp only [captureWithHar, hl, hc, hf, hrec, if_true, writeFile]
  simp
  rfl

/-- C8 witness: a concrete run in which every navigation fails and nothing
is recorded returns `requestCount = 0` and the empty cookie map. -/
theorem emptyTrace_result_witness :
    match (captureWithHar ["https://down.example"] {} noEntriesEnv emptyWorld).1 with
    | Except.ok r => r.requestCount = 0 ∧ r.cookies = emptyCookies
    | Except.error _ => False :=
  emptyTrace_result ["https://down.example"] {} noEntriesEnv emptyWorld rfl rfl rfl rfl

/-- C4: the session raises an error if and only if browser launch fails,
recording-context acquisition fails, or the finalized trace cannot be read
back (the flush did not land and no file is at the destination) — first
conjunct; whenever both acquisitions succeed, every target is navigated to,
in list order, regardless of per-target navigation failures (second
conjunct); and when the flush also lands, the session returns a complete
result whose trace is everything recorded and whose visited count is the
number of successful navigations (third conjunct). -/
theorem failure_conditions (urls : List String) (options : CaptureOptions)
    (env : Env) (w0 : World) :
    ((resultError (captureWithHar urls options env w0).1).isSome = true ↔
      (env.launchOk options.headless = false ∨ env.newContextOk = false ∨
        (env.flushOk = false ∧ w0.fs (tempHarPath env.now) = none)))
    ∧ (env.launchOk options.headless = true → env.newContextOk = true →
        navTargets (captureWithHar urls options env w0).2.events =
          navTargets w0.events ++ urls)
    ∧ (env.launchOk options.headless = true → env.newContextOk = true →
        env.flushOk = true →
        match (captureWithHar urls options env w0).1 with
        | Except.ok r =>
            r.har.log.entries = (runVisits env options.waitMs urls).recorded ∧
            r.crawlResult =
              some { pagesCrawled := (runVisits env options.waitMs urls).pagesVisited,
                     openApiSource := none }
        | Except.error _ => False) := by
  refine ⟨?_, ?_, ?_⟩
  · cases hl : env.launchOk options.headless with
    | false => simp [captureWithHar, hl, resultError]
    | true =>
      cases hc : env.newContextOk with
      | false => simp [captureWithHar, hl, hc, resultError]
      | true =>
        cases hfk : env.flushOk with
        | true => simp [captureWithHar, hl, hc, hfk, resultError, writeFile]
        | false =>
          cases hb : env.firstBlockOk with
          | true =>
            cases hfs : w0.fs (tempHarPath env.now) with
            | none =>
              simp [captureWithHar, hl, hc, hfk, hb, hfs, resultError, writeFile,
                tempHarPath_ne_firstHarPath]
            | some har =>
              simp [captureWithHar, hl, hc, hfk, hb, hfs, resultError, writeFile,
                tempHarPath_ne_firstHarPath]
          | false =>
            cases hfs : w0.fs (tempHarPath env.now) with
            | none => simp [captureWithHar, hl, hc, hfk, hb, hfs, resultError]
            | some har => simp [captureWithHar, hl, hc, hfk, hb, hfs, resultError]
  · intro hl hc
    cases hb : env.firstBlockOk with
    | true =>
      cases hfk : env.flushOk with
      | true =>
        simp [captureWithHar, hl, hc, hb, hfk, writeFile, navTargets_append,
          navTargets_cons, navTargets_nil, navTargets_runVisits]
      | false =>
        cases hfs : w0.fs (tempHarPath env.now) with
        | none =>
          simp [captureWithHar, hl, hc, hb, hfk, hfs, writeFile,
            tempHarPath_ne_firstHarPath, navTargets_append, navTargets_cons,
            navTargets_nil, navTargets_runVisits]
        | some har =>
          simp [captureWithHar, hl, hc, hb, hfk, hfs, writeFile,
            tempHarPath_ne_firstHarPath, navTargets_append, navTargets_cons,
            navTargets_nil, navTargets_runVisits]
    | false =>
      cases hfk : env.flushOk with
      | true =>
        simp [captureWithHar, hl, hc, hb, hfk, writeFile, navTargets_append,
          navTargets_cons, navTargets_nil, navTargets_runVisits]
      | false =>
        cases hfs : w0.fs (tempHarPath env.now) with
        | none =>
          simp [captureWithHar, hl, hc, hb, hfk, hfs, navTargets_append,
            navTargets_cons, navTargets_nil, navTargets_runVisits]
        | some har =>
          simp [captureWithHar, hl, hc, hb, hfk, hfs, navTargets_append,
            navTargets_cons, navTargets_nil, navTargets_runVisits]
  · intro hl hc hf
    simp [captureWithHar, hl, hc, hf, writeFile]

/-- C4 witness: on a concrete run whose second target fails navigation, both
targets are navigated to in order and the session does not raise. -/
theorem failure_conditions_witness :
    navTargets (captureWithHar ["a", "b"] {} secondFailsEnv emptyWorld).2.events =
      ["a", "b"] := by
  have h := (failure_conditions ["a", "b"] {} secondFailsEnv emptyWorld).2.1 rfl rfl
  simpa [navTargets, emptyWorld] using h

/-- C2 counterexample: a successful concrete session starts with an empty
disk, returns without error, and still leaves the throwaway context's trace
destination `temp_har.har` on disk — a temporary trace destination created
by the session exists after the session ends. -/
theorem tempFile_leak_counterexample :
    emptyWorld.fs firstHarPath = none
    ∧ resultError (captureWithHar ["https://example.com"] {} allOkEnv emptyWorld).1 = none
    ∧ (captureWithHar ["https://example.com"] {} allOkEnv emptyWorld).2.fs firstHarPath =
        some emptyHar := by
  decide

/-- C2 amended: after a session ends — whether it returned or failed
fatally — the session's main temporary trace destination
(`temp_capture_<timestamp>.har`) does not exist on disk, provided no file
already existed there before the session; however the throwaway context's
destination `temp_har.har`, flushed when the throwaway block completes
after a successful launch, does remain on disk. -/
theorem mainTrace_cleanup (urls : List String) (options : CaptureOptions)
    (env : Env) (w0 : World)
    (h0 : w0.fs (tempHarPath env.now) = none) :
    (captureWithHar urls options env w0).2.fs (tempHarPath env.now) = none
    ∧ (env.launchOk options.headless = true → env.firstBlockOk = true →
        (captureWithHar urls options env w0).2.fs firstHarPath = some emptyHar) := by
  constructor
  · cases hl : env.launchOk options.headless with
    | false => simp [captureWithHar, hl, h0]
    | true =>
      cases hc : env.newContextOk with
      | false =>
        cases hb : env.firstBlockOk <;>
          simp [captureWithHar, hl, hc, hb, h0, writeFile, tempHarPath_ne_firstHarPath]
      | true =>
        cases hfk : env.flushOk with
        | true =>
          cases hb : env.firstBlockOk <;>
            simp [captureWithHar, hl, hc, hfk, hb, writeFile, removeFile]
        | false =>
          cases hb : env.firstBlockOk <;>
            simp [captureWithHar, hl, hc, hfk, hb, h0, writeFile, removeFile,
              tempHarPath_ne_firstHarPath]
  · intro hl hb
    cases hc : env.newContextOk with
    | false => simp [captureWithHar, hl, hc, hb, writeFile]
    | true =>
      cases hfk : env.flushOk with
      | true =>
        simp [captureWithHar, hl, hc, hb, hfk, writeFile, removeFile,
          firstHarPath_ne_tempHarPath]
      | false =>
        cases hfs : w0.fs (tempHarPath env.now) with
        | none =>
          simp [captureWithHar, hl, hc, hb, hfk, hfs, writeFile,
            tempHarPath_ne_firstHarPath, firstHarPath_ne_tempHarPath]
        | some har =>
          simp [captureWithHar, hl, hc, hb, hfk, hfs, writeFile, removeFile,
            tempHarPath_ne_firstHarPath, firstHarPath_ne_tempHarPath]

/-- C2 amended witness: on a concrete successful run starting from an empty
disk, the main trace destination is gone afterwards while `temp_har.har`
remains. -/
theorem mainTrace_cleanup_witness :
    (captureWithHar ["https://example.com"] {} allOkEnv emptyWorld).2.fs
        (tempHarPath allOkEnv.now) = none
    ∧ (captureWithHar ["https://example.com"] {} allOkEnv emptyWorld).2.fs firstHarPath =
        some emptyHar := by
  have h := mainTrace_cleanup ["https://example.com"] {} allOkEnv emptyWorld rfl
  exact ⟨h.1, h.2 rfl rfl⟩

/-- C3 counterexample: in a concrete run where the browser launches but
recording-context acquisition fails, the function raises and the event log
contains no browser teardown — the acquired browser is not torn down on
this exit path. -/
theorem browser_leak_counterexample :
    resultError (captureWithHar ["https://example.com"] {} ctxFailEnv emptyWorld).1 =
      some CaptureError.contextFailed
    ∧ Ev.closeBrowser ∉
        (captureWithHar ["https://example.com"] {} ctxFailEnv emptyWorld).2.events := by
  decide

/-- C3 amended: when the recording context is acquired as well, cleanup
happens on every remaining path and unwinds in reverse-acquisition order —
the recording context is closed and immediately afterwards the browser;
but when recording-context acquisition fails after the browser was
acquired, the function raises without ever closing the browser. -/
theorem teardown_order (urls : List String) (options : CaptureOptions)
    (env : Env) (w0 : World)
    (hl : env.launchOk options.headless = true) :
    (env.newContextOk = true →
      ∃ l₁ l₂, (captureWithHar urls options env w0).2.events =
        l₁ ++ [Ev.closeContext (tempHarPath env.now), Ev.closeBrowser] ++ l₂)
    ∧ (env.newContextOk = false → Ev.closeBrowser ∉ w0.events →
        Ev.closeBrowser ∉ (captureWithHar urls options env w0).2.events) := by
  constructor
  · intro hc
    cases hb : env.firstBlockOk with
    | true =>
      cases hfk : env.flushOk with
      | true =>
        refine ⟨w0.events ++ [Ev.launch, Ev.newContext firstHarPath, Ev.closeContext firstHarPath]
            ++ [Ev.newContext (tempHarPath env.now)] ++ (runVisits env options.waitMs urls).events,
          [Ev.readTrace (tempHarPath env.now), Ev.deleteTrace (tempHarPath env.now)], ?_⟩
        simp [captureWithHar, hl, hc, hb, hfk, writeFile]
      | false =>
        cases hfs : w0.fs (tempHarPath env.now) with
        | none =>
          refine ⟨w0.events ++ [Ev.launch, Ev.newContext firstHarPath, Ev.closeContext firstHarPath]
              ++ [Ev.newContext (tempHarPath env.now)] ++ (runVisits env options.waitMs urls).events,
            [], ?_⟩
          simp [captureWithHar, hl, hc, hb, hfk, hfs, writeFile, tempHarPath_ne_firstHarPath]
        | some har =>
          refine ⟨w0.events ++ [Ev.launch, Ev.newContext firstHarPath, Ev.closeContext firstHarPath]
              ++ [Ev.newContext (tempHarPath env.now)] ++ (runVisits env options.waitMs urls).events,
            [Ev.readTrace (tempHarPath env.now), Ev.deleteTrace (tempHarPath env.now)], ?_⟩
          simp [captureWithHar, hl, hc, hb, hfk, hfs, writeFile, tempHarPath_ne_firstHarPath]
    | false =>
      cases hfk : env.flushOk with
      | true =>
        refine ⟨w0.events ++ [Ev.launch] ++ [Ev.newContext (tempHarPath env.now)]
            ++ (runVisits env options.waitMs urls).events,
          [Ev.readTrace (tempHarPath env.now), Ev.deleteTrace (tempHarPath env.now)], ?_⟩
        simp [captureWithHar, hl, hc, hb, hfk, writeFile]
      | false =>
        cases hfs : w0.fs (tempHarPath env.now) with
        | none =>
          refine ⟨w0.events ++ [Ev.launch] ++ [Ev.newContext (tempHarPath env.now)]
              ++ (runVisits env options.waitMs urls).events, [], ?_⟩
          simp [captureWithHar, hl, hc, hb, hfk, hfs]
        | some har =>
          refine ⟨w0.events ++ [Ev.launch] ++ [Ev.newContext (tempHarPath env.now)]
              ++ (runVisits env options.waitMs urls).events,
            [Ev.readTrace (tempHarPath env.now), Ev.deleteTrace (tempHarPath env.now)], ?_⟩
          simp [captureWithHar, hl, hc, hb, hfk, hfs]
  · intro hc hmem
    cases hb : env.firstBlockOk with
    | true =>
      simp only [captureWithHar, hl, hc, hb, if_true, Bool.false_eq_true, if_false]
      simp [List.mem_append, hmem]
    | false =>
      simp only [captureWithHar, hl, hc, hb, if_true, Bool.false_eq_true, if_false]
      simp [List.mem_append, hmem]

/-- C3 amended witness: on a concrete all-success run the browser is torn
down, while on a concrete run whose context acquisition fails it is not. -/
theorem teardown_order_witness :
    Ev.closeBrowser ∈ (captureWithHar ["https://example.com"] {} allOkEnv emptyWorld).2.events
    ∧ Ev.closeBrowser ∉
        (captureWithHar ["https://example.com"] {} ctxFailEnv emptyWorld).2.events := by
  constructor
  · obtain ⟨l₁, l₂, h⟩ :=
      (teardown_order ["https://example.com"] {} allOkEnv emptyWorld rfl).1 rfl
    rw [h]
    simp
  · exact (teardown_order ["https://example.com"] {} ctxFailEnv emptyWorld rfl).2 rfl
      (by decide)

/-- C7 counterexample: two concrete session instances with distinct
timestamps each acquire a recording context bound to the same destination
`temp_har.har` (the throwaway context's fixed path), so not every acquired
recording context is bound to a fresh, unique, time-suffixed destination. -/
theorem shared_destination_counterexample :
    allOkEnv.now ≠ laterEnv.now
    ∧ Ev.newContext firstHarPath ∈
        (captureWithHar ["a"] {} allOkEnv emptyWorld).2.events
    ∧ Ev.newContext firstHarPath ∈
        (captureWithHar ["a"] {} laterEnv emptyWorld).2.events := by
  decide

/-- C7 amended: the main capture context is bound to the time-suffixed
destination `temp_capture_<timestamp>.har`, and two sessions with distinct
timestamps use distinct main destinations; but the throwaway context
acquired at session start is bound to the fixed destination `temp_har.har`
shared by all sessions, and sessions sharing a timestamp share the main
destination too. -/
theorem main_destination_unique (urls : List String) (options : CaptureOptions)
    (env : Env) (w0 : World) (n₁ n₂ : Nat)
    (hl : env.launchOk options.headless = true)
    (hc : env.newContextOk = true) (hne : n₁ ≠ n₂) :
    Ev.newContext (tempHarPath env.now) ∈ (captureWithHar urls options env w0).2.events
    ∧ tempHarPath n₁ ≠ tempHarPath n₂ := by
  constructor
  · cases hb : env.firstBlockOk with
    | true =>
      cases hfk : env.flushOk with
      | true => simp [captureWithHar, hl, hc, hb, hfk, writeFile]
      | false =>
        cases hfs : w0.fs (tempHarPath env.now) with
        | none =>
          simp [captureWithHar, hl, hc, hb, hfk, hfs, writeFile,
            tempHarPath_ne_firstHarPath]
        | some har =>
          simp [captureWithHar, hl, hc, hb, hfk, hfs, writeFile,
            tempHarPath_ne_firstHarPath]
    | false =>
      cases hfk : env.flushOk with
      | true => simp [captureWithHar, hl, hc, hb, hfk, writeFile]
      | false =>
        cases hfs : w0.fs (tempHarPath env.now) with
        | none => simp [captureWithHar, hl, hc, hb, hfk, hfs]
        | some har => simp [captureWithHar, hl, hc, hb, hfk, hfs]
  · exact fun h => hne (tempHarPath_inj n₁ n₂ h)

/-- C7 amended witness: a concrete session binds its main context to its
time-suffixed destination, and the destinations of timestamps 0 and 1
differ. -/
theorem main_destination_unique_witness :
    Ev.newContext (tempHarPath allOkEnv.now) ∈
        (captureWithHar ["a"] {} allOkEnv emptyWorld).2.events
    ∧ tempHarPath 0 ≠ tempHarPath 1 :=
  main_destination_unique ["a"] {} allOkEnv emptyWorld 0 1 rfl rfl (by decide)

end Traffic2Api
